import Mathlib

/-!
Shallow embedding of `verse_notes.py` (a Bible-verse REPL with locally
persisted notes) for checking its natural-language specification.

The embedding follows the Python source function by function:
Python strings become Lean `String`, Python dicts (which preserve
insertion order) become association lists, `None`-able strings become
`Option String`, Python `int` becomes `Int`, and exceptions become
explicit outcome constructors.  Every definition names the source
function it embeds.
-/

namespace VerseNotes

/-- Whitespace for Python `str.strip` and for the `\s` class of the
ASCII reference patterns (space, tab, newline, carriage return,
vertical tab, form feed). -/
def isPySpace (c : Char) : Bool :=
  c = ' ' ∨ c = '\t' ∨ c = '\n' ∨ c = '\r' ∨ c = '\x0b' ∨ c = '\x0c'

/-- Whitespace recognized by the `shlex` tokenizer (its default
whitespace set is space, tab, carriage return, newline). -/
def isShlexSpace (c : Char) : Bool :=
  c = ' ' ∨ c = '\t' ∨ c = '\r' ∨ c = '\n'

/-- Python `str.strip` on a character list. -/
def stripChars (l : List Char) : List Char :=
  ((l.dropWhile isPySpace).reverse.dropWhile isPySpace).reverse

/-- Python `str.strip`. -/
def pyStrip (s : String) : String :=
  String.mk (stripChars s.toList)

/-- Python `str.lower` (ASCII letters). -/
def pyLower (s : String) : String :=
  String.mk (s.toList.map Char.toLower)

/-- Python `str.title` on a character list: an alphabetic character is
uppercased when the preceding character is not alphabetic and
lowercased otherwise; other characters pass through and reset the
word boundary. -/
def pyTitleGo : Bool → List Char → List Char
  | _, [] => []
  | prevAlpha, c :: rest =>
    if c.isAlpha then
      (if prevAlpha then c.toLower else c.toUpper) :: pyTitleGo true rest
    else
      c :: pyTitleGo false rest

/-- Python `str.title`. -/
def pyTitle (l : List Char) : List Char :=
  pyTitleGo false l

/-- Numeric value of a decimal digit character. -/
def digitVal (c : Char) : Nat :=
  c.toNat - 48

/-- Digit run accepted by Python `int`, allowing single underscores
between digit groups, accumulating the value. -/
def pyIntDigitsGo (acc : Nat) : List Char → Option Nat
  | [] => some acc
  | '_' :: c :: rest =>
    if c.isDigit then pyIntDigitsGo (acc * 10 + digitVal c) rest else none
  | c :: rest =>
    if c.isDigit then pyIntDigitsGo (acc * 10 + digitVal c) rest else none

/-- Nonempty digit body accepted by Python `int` after the sign. -/
def pyIntDigits : List Char → Option Nat
  | [] => none
  | c :: rest =>
    if c.isDigit then pyIntDigitsGo (digitVal c) rest else none

/-- Python `int(str)`: strips whitespace, accepts an optional sign and
a nonempty digit run (single underscores allowed between digits);
returns `none` where Python raises `ValueError`. -/
def pyInt? (s : String) : Option Int :=
  match stripChars s.toList with
  | '+' :: rest => (pyIntDigits rest).map (fun n => (n : Int))
  | '-' :: rest => (pyIntDigits rest).map (fun n => -(n : Int))
  | t => (pyIntDigits t).map (fun n => (n : Int))

/-- Character class `[A-Za-z\s]` of the reference pattern. -/
def isBookChar (c : Char) : Bool :=
  c.isAlpha ∨ isPySpace c

/-- Character class `[\d\-,]` of the verse-key part of the reference
pattern. -/
def isVerseChar (c : Char) : Bool :=
  c.isDigit ∨ c = '-' ∨ c = ','

/-- Tail of the reference pattern after the lazily matched book name:
`\s*(\d+)?(?::\s*([\d\-,]+))?$`.  The character classes of adjacent
pieces are disjoint, so the greedy pieces never need to backtrack and
the match is computed in one pass.  Returns the captured chapter
digits and verse-key characters. -/
def restMatch (s : List Char) : Option (Option (List Char) × Option (List Char)) :=
  let s1 := s.dropWhile isPySpace
  let ds := s1.takeWhile Char.isDigit
  let s2 := s1.dropWhile Char.isDigit
  let ch : Option (List Char) := if ds = [] then none else some ds
  match s2 with
  | [] => some (ch, none)
  | ':' :: s3 =>
    let s4 := s3.dropWhile isPySpace
    let vs := s4.takeWhile isVerseChar
    let s5 := s4.dropWhile isVerseChar
    if vs ≠ [] ∧ s5 = [] then some (ch, some vs) else none
  | _ => none

/-- Lazy `[A-Za-z\s]+?` of the book-name group: consume one book
character at a time, after each one first trying to match the rest of
the pattern on the remainder (shortest match wins, as the lazy
quantifier prescribes). -/
def lazyBook (acc : List Char) : List Char → Option (List Char × Option (List Char) × Option (List Char))
  | [] => none
  | c :: rest =>
    if isBookChar c then
      match restMatch rest with
      | some (ch, vk) => some (acc ++ [c], ch, vk)
      | none => lazyBook (acc ++ [c]) rest
    else none

/-- Full anchored reference pattern
`^((\d\s)?[A-Za-z\s]+?)\s*(\d+)?(?::\s*([\d\-,]+))?$` of
`parse_reference`.  The optional greedy `(\d\s)?` prefix is tried
first with the digit-space consumed, then without. -/
def regexMatch (s : List Char) : Option (List Char × Option (List Char) × Option (List Char)) :=
  match s with
  | d :: sp :: rest =>
    if d.isDigit ∧ isPySpace sp then
      match lazyBook [d, sp] rest with
      | some r => some r
      | none => lazyBook [] s
    else lazyBook [] s
  | _ => lazyBook [] s

/-- Fallback pattern `^((\d\s)?[A-Za-z\s]+)$` used by
`parse_reference` when the main pattern fails: the entire input is an
optional digit-space prefix followed by at least one letter or space. -/
def bookOnlyFullmatch (s : List Char) : Bool :=
  (!s.isEmpty && s.all isBookChar)
  || (match s with
      | d :: sp :: rest => d.isDigit && isPySpace sp && !rest.isEmpty && rest.all isBookChar
      | _ => false)

/-- Embedding of `parse_reference` (verse_notes.py lines 94-132):
strips the input, tries the full reference pattern (book is the
captured name stripped and title-cased, chapter and verse key are the
raw captures), falls back to a whole-input book-only match, and
returns `(none, none, none)` for invalid input. -/
def parse_reference (ref_string : String) : Option String × Option String × Option String :=
  let t := stripChars ref_string.toList
  match regexMatch t with
  | some (bk, ch, vk) =>
    (some (String.mk (pyTitle (stripChars bk))), ch.map String.mk, vk.map String.mk)
  | none =>
    if bookOnlyFullmatch t then
      (some (String.mk (pyTitle t)), none, none)
    else
      (none, none, none)

/-! ## Note store data model

The persisted JSON document and the in-memory `bible_notes` global are
nested Python dicts; dicts preserve insertion order and have unique
keys, so they are embedded as association lists looked up by the
first matching key and extended at the end. -/

/-- Python `str.split("-")` on a character list: split on every
hyphen, keeping empty pieces, so the result is always nonempty. -/
def splitHyphenChars : List Char → List (List Char)
  | [] => [[]]
  | c :: rest =>
    if c = '-' then [] :: splitHyphenChars rest
    else
      match splitHyphenChars rest with
      | [] => [[c]]
      | t :: ts => (c :: t) :: ts

/-- Python `str.split("-")`. -/
def pySplitHyphen (s : String) : List String :=
  (splitHyphenChars s.toList).map String.mk

/-- Python `"-" in s`. -/
def hasHyphen (s : String) : Bool :=
  s.toList.contains '-'

/-- One chapter of the store: `{"notes": [...], "verses": {key: [...]}}`. -/
structure ChapterEntry where
  notes : List String
  verses : List (String × List String)
deriving Repr, DecidableEq

/-- One book of the store: `{"notes": [...], "chapters": {...}}`. -/
structure BookEntry where
  notes : List String
  chapters : List (String × ChapterEntry)
deriving Repr, DecidableEq

/-- The `bible_notes` global: book name to book entry. -/
abbrev Store := List (String × BookEntry)

/-- Dict lookup on an association list (first matching key). -/
def alookup (k : String) : List (String × α) → Option α
  | [] => none
  | (k₁, v) :: rest => if k₁ = k then some v else alookup k rest

/-- Dict update of an existing key on an association list: apply `f`
to the value of the first matching key. -/
def aupdate (k : String) (f : α → α) : List (String × α) → List (String × α)
  | [] => []
  | (k₁, v) :: rest => if k₁ = k then (k₁, f v) :: rest else (k₁, v) :: aupdate k f rest

/-- Python truthiness of an optional string (`None` and `""` are
falsy). -/
def truthy : Option String → Bool
  | none => false
  | some s => !(s == "")

/-- Result dict of `get_notes_for_reference`: the four scope lists. -/
@[ext]
structure NotesResult where
  book : List String
  chapter : List String
  group : List String
  individual : List String
deriving Repr, DecidableEq

/-- The all-empty result dict initialized at the top of
`get_notes_for_reference`. -/
def emptyNotes : NotesResult :=
  ⟨[], [], [], []⟩

/-! ## Note resolver -/

/-- Group-note loop body of `get_notes_for_reference` (lines 177-185),
including the surrounding `try`: Python `int` raising `ValueError` on
a two-part hyphenated key aborts the whole loop, returning only the
contributions accumulated so far.  Keys without a hyphen, the exact
target key, and keys splitting into a number of parts other than two
are skipped without touching `int`. -/
def groupLoop (num : Int) (vk : String) : List (String × List String) → List String → List String
  | [], acc => acc
  | (key, gnotes) :: rest, acc =>
    if ¬ hasHyphen key ∨ key = vk then
      groupLoop num vk rest acc
    else
      match pySplitHyphen key with
      | [a, b] =>
        match pyInt? a, pyInt? b with
        | some s, some e =>
          groupLoop num vk rest (if s ≤ num ∧ num ≤ e then acc ++ gnotes else acc)
        | _, _ => acc
      | _ => groupLoop num vk rest acc

/-- Group resolution of `get_notes_for_reference` (lines 171-187):
parse the leading integer of the target verse key; if that raises,
the `except ValueError` leaves the group list empty; otherwise run
the loop over the stored verse keys. -/
def groupResolve (verses : List (String × List String)) (vk : String) : List String :=
  match pyInt? ((pySplitHyphen vk).headD "") with
  | none => []
  | some num => groupLoop num vk verses []

/-- Verse stage of `get_notes_for_reference` (lines 167-187): at level
at least 1 take the exact verse-key match as the individual notes, at
level at least 2 run group resolution. -/
def gnVerseStage (notes : NotesResult) (chapter_verses : List (String × List String)) (vk : String) (note_level : Int) : NotesResult :=
  let notes1 := if note_level ≥ 1 then { notes with individual := (alookup vk chapter_verses).getD [] } else notes
  if note_level ≥ 2 then { notes1 with group := groupResolve chapter_verses vk } else notes1

/-- Chapter stage of `get_notes_for_reference` (lines 153-187): stop
when the chapter is falsy or unknown, at level at least 3 include the
chapter notes, stop when the verse key is falsy or the chapter has an
empty verses dict, then descend to the verse stage. -/
def gnChapterStage (notes : NotesResult) (be : BookEntry) (chapter? verse_key? : Option String) (note_level : Int) : NotesResult :=
  if truthy chapter? = false then notes else
  match alookup (chapter?.getD "") be.chapters with
  | none => notes
  | some ce =>
    let notes1 := if note_level ≥ 3 then { notes with chapter := ce.notes } else notes
    if truthy verse_key? = false then notes1
    else if ce.verses = [] then notes1
    else gnVerseStage notes1 ce.verses (verse_key?.getD "") note_level

/-- Embedding of `get_notes_for_reference` (verse_notes.py lines
134-189): resolve the scoped notes for a coordinate at a detail
level, returning the four scope lists.  The body only reads the
store. -/
def get_notes_for_reference (store : Store) (book? chapter? verse_key? : Option String) (note_level : Int) : NotesResult :=
  if truthy book? = false then emptyNotes else
  match alookup (book?.getD "") store with
  | none => emptyNotes
  | some be =>
    let notes1 := if note_level ≥ 4 then { emptyNotes with book := be.notes } else emptyNotes
    gnChapterStage notes1 be chapter? verse_key? note_level

/-- State-passing form of a `get_notes_for_reference` call site: the
Python body contains no assignment to the global store and no
mutation of any list reached from it (the only mutated list is the
fresh `notes["group"]`), so the store after the call is the store
before it. -/
def get_notes_st (store : Store) (book? chapter? verse_key? : Option String) (note_level : Int) : Store × NotesResult :=
  (store, get_notes_for_reference store book? chapter? verse_key? note_level)

/-! ## Note store operations -/

/-- Embedding of the `/addnote` mutation (verse_notes.py lines
334-359): create the missing book, chapter and verse containers, then
append the note text to the list selected by the specificity of the
reference. -/
def add_note (store : Store) (book : String) (chapter? verse_key? : Option String) (note_text : String) : Store :=
  let store1 := if alookup book store = none then store ++ [(book, ⟨[], []⟩)] else store
  if truthy chapter? = false then
    aupdate book (fun be => { be with notes := be.notes ++ [note_text] }) store1
  else
    let ch := chapter?.getD ""
    let store2 := aupdate book (fun be =>
      if alookup ch be.chapters = none then { be with chapters := be.chapters ++ [(ch, ⟨[], []⟩)] } else be) store1
    if truthy verse_key? = false then
      aupdate book (fun be =>
        { be with chapters := aupdate ch (fun ce => { ce with notes := ce.notes ++ [note_text] }) be.chapters }) store2
    else
      let vk := verse_key?.getD ""
      let store3 := aupdate book (fun be =>
        { be with chapters := aupdate ch (fun ce =>
          if alookup vk ce.verses = none then { ce with verses := ce.verses ++ [(vk, [])] } else ce) be.chapters }) store2
      aupdate book (fun be =>
        { be with chapters := aupdate ch (fun ce =>
          { ce with verses := aupdate vk (fun l => l ++ [note_text]) ce.verses }) be.chapters }) store3

/-- Target-list resolution of `/delnote` (verse_notes.py lines
378-390): the nested dict indexing selected by the specificity of the
reference; `none` is the `KeyError` caught as a not-found error. -/
def del_target (store : Store) (book : String) (chapter? verse_key? : Option String) : Option (List String) :=
  if truthy chapter? = false then
    (alookup book store).map BookEntry.notes
  else if truthy verse_key? = false then
    ((alookup book store).bind fun be => alookup (chapter?.getD "") be.chapters).map ChapterEntry.notes
  else
    ((alookup book store).bind fun be => alookup (chapter?.getD "") be.chapters).bind fun ce =>
      alookup (verse_key?.getD "") ce.verses

/-- Outcome of the `/delnote` mutation. -/
inductive DelOutcome where
  | notFound
  | outOfRange (len : Nat)
  | deleted (text : String)
deriving Repr, DecidableEq

/-- Embedding of the `/delnote` mutation (verse_notes.py lines
374-402) with the 1-based `position` as typed by the user: the code
converts it to the 0-based `note_num`, resolves the target list
(`KeyError` means not found, store untouched), rejects an index
outside the list (store untouched), and otherwise pops the entry in
place and reports the removed text. -/
def delete_note (store : Store) (book : String) (chapter? verse_key? : Option String) (position : Int) : DelOutcome × Store :=
  let note_num := position - 1
  match del_target store book chapter? verse_key? with
  | none => (.notFound, store)
  | some l =>
    if 0 ≤ note_num ∧ note_num < (l.length : Int) then
      let i := note_num.toNat
      let l2 := l.eraseIdx i
      let store1 :=
        if truthy chapter? = false then
          aupdate book (fun be => { be with notes := l2 }) store
        else if truthy verse_key? = false then
          aupdate book (fun be =>
            { be with chapters := aupdate (chapter?.getD "") (fun ce => { ce with notes := l2 }) be.chapters }) store
        else
          aupdate book (fun be =>
            { be with chapters := aupdate (chapter?.getD "") (fun ce =>
              { ce with verses := aupdate (verse_key?.getD "") (fun _ => l2) ce.verses }) be.chapters }) store
      (.deleted (l.getD i ""), store1)
    else (.outOfRange l.length, store)

/-! ## Loading the persisted document -/

/-- Observable state of the persisted notes document as seen by
`load_notes`: the file is absent; opening or reading it raises
`IOError`; the file is present but its bytes are not decodable in the
text-mode encoding, so reading inside `json.load` raises
`UnicodeDecodeError`; the bytes decode but `json.load` raises
`JSONDecodeError`; or it parses to a store-shaped document. -/
inductive NotesFile where
  | absent
  | unreadable
  | undecodable
  | malformed
  | valid (s : Store)

/-- Result of `load_notes`: the resulting store together with the
warning flag, or the propagation of an uncaught exception out of the
function (which terminates the process, since `load_notes` runs at
REPL startup with no handler above it). -/
inductive LoadOutcome where
  | loaded (s : Store) (warned : Bool)
  | crash
deriving Repr, DecidableEq

/-- Embedding of `load_notes` (verse_notes.py lines 73-84) over the
observable file state: an absent file yields the empty store without
a warning; an `IOError` or `JSONDecodeError` is caught by the
`except (json.JSONDecodeError, IOError)` clause, a warning is printed
(the flag) and the store is reset to empty; but a present document
with undecodable bytes raises `UnicodeDecodeError`, which subclasses
`ValueError` and neither `JSONDecodeError` nor `OSError`, so the
clause does not catch it and it escapes; a valid document becomes the
store. -/
def load_notes : NotesFile → LoadOutcome
  | .absent => .loaded [] false
  | .unreadable => .loaded [] true
  | .undecodable => .crash
  | .malformed => .loaded [] true
  | .valid s => .loaded s false

/-! ## Clipboard assembly -/

/-- Joiner selection of `fetch_and_display_verses` (verse_notes.py
lines 260-264): default newline, overridden by an explicit joiner,
else by the spacious blank-line joiner. -/
def select_joiner (joiner : Option String) (enable_spacious : Bool) : String :=
  let final_joiner := "\n"
  match joiner with
  | some j => j
  | none => if enable_spacious then "\n\n" else final_joiner

/-- The accumulated clipboard lines of `fetch_and_display_verses`
(line 253): for each verse of the response, its reference followed by
its stripped text. -/
def copyLines (verses : List (String × String)) : List String :=
  verses.map (fun rt => rt.1 ++ " " ++ pyStrip rt.2)

/-- The clipboard text assembled at line 266: the accumulated lines
joined by the selected joiner. -/
def clipboard_text (verses : List (String × String)) (joiner : Option String) (enable_spacious : Bool) : String :=
  String.intercalate (select_joiner joiner enable_spacious) (copyLines verses)

/-! ## Backslash-escape decoding for the custom joiner

The REPL decodes the `-j` argument with
`codecs.decode(arg, "unicode_escape")`, which first encodes the
string as UTF-8 bytes and then decodes the byte stream: plain bytes
become their latin-1 characters and backslash escapes are
interpreted, raising `UnicodeDecodeError` on a truncated or invalid
`\x`, `\u` or `\U` escape.  `none` models the raised error.  Two
simplifications: the Unicode-name escape `\N{...}` (a name-table
lookup) is modelled as a decode failure, and a decoded surrogate
value (which Python admits inside `str`) falls back to the null
character since Lean characters exclude surrogates. -/

/-- Hexadecimal digit value. -/
def hexVal? (c : Char) : Option Nat :=
  if '0' ≤ c ∧ c ≤ '9' then some (c.toNat - 48)
  else if 'a' ≤ c ∧ c ≤ 'f' then some (c.toNat - 87)
  else if 'A' ≤ c ∧ c ≤ 'F' then some (c.toNat - 55)
  else none

/-- Octal digit value. -/
def octVal? (c : Char) : Option Nat :=
  if '0' ≤ c ∧ c ≤ '7' then some (c.toNat - 48) else none

/-- Greedy consumption of up to two further octal digits after a
first digit of value `v1`, as in the up-to-three-digit octal escapes
of `unicode_escape`; returns the escape value and the remaining
input, which is no longer than the given input. -/
def octTake (v1 : Nat) (l : List Char) : Nat × List Char :=
  match l with
  | [] => (v1, [])
  | d2 :: rest2 =>
    match octVal? d2 with
    | none => (v1, d2 :: rest2)
    | some v2 =>
      match rest2 with
      | [] => (8 * v1 + v2, [])
      | d3 :: rest3 =>
        match octVal? d3 with
        | none => (8 * v1 + v2, d3 :: rest3)
        | some v3 => (64 * v1 + 8 * v2 + v3, rest3)

/-- UTF-8 bytes of one character. -/
def utf8Bytes (c : Char) : List Nat :=
  let n := c.toNat
  if n < 128 then [n]
  else if n < 2048 then [192 + n / 64, 128 + n % 64]
  else if n < 65536 then [224 + n / 4096, 128 + (n / 64) % 64, 128 + n % 64]
  else [240 + n / 262144, 128 + (n / 4096) % 64, 128 + (n / 64) % 64, 128 + n % 64]

/-- Core of the `unicode_escape` decoder over the latin-1 view of the
byte stream.  The fuel argument makes the recursion structural so
that concrete inputs evaluate inside the kernel; every step consumes
at least one character and one unit of fuel, so fuel equal to the
input length (as `decodeUE` supplies) never runs out, and the
fuel-exhaustion branch is unreachable. -/
def decodeUEGo : Nat → List Char → Option (List Char)
  | _, [] => some []
  | 0, _ :: _ => none
  | _ + 1, ['\\'] => none
  | fuel + 1, '\\' :: 'x' :: rest =>
    (match rest with
     | h1 :: h2 :: rest2 =>
       match hexVal? h1, hexVal? h2 with
       | some a, some b => (decodeUEGo fuel rest2).map (fun l => Char.ofNat (16 * a + b) :: l)
       | _, _ => none
     | _ => none)
  | fuel + 1, '\\' :: 'u' :: rest =>
    (match rest with
     | h1 :: h2 :: h3 :: h4 :: rest2 =>
       match hexVal? h1, hexVal? h2, hexVal? h3, hexVal? h4 with
       | some a, some b, some c, some d =>
         (decodeUEGo fuel rest2).map (fun l => Char.ofNat (4096 * a + 256 * b + 16 * c + d) :: l)
       | _, _, _, _ => none
     | _ => none)
  | fuel + 1, '\\' :: 'U' :: rest =>
    (match rest with
     | h1 :: h2 :: h3 :: h4 :: h5 :: h6 :: h7 :: h8 :: rest2 =>
       match hexVal? h1, hexVal? h2, hexVal? h3, hexVal? h4, hexVal? h5, hexVal? h6, hexVal? h7, hexVal? h8 with
       | some a, some b, some c, some d, some e, some f, some g, some h =>
         let n := ((((((a * 16 + b) * 16 + c) * 16 + d) * 16 + e) * 16 + f) * 16 + g) * 16 + h
         if n ≤ 1114111 then (decodeUEGo fuel rest2).map (fun l => Char.ofNat n :: l) else none
       | _, _, _, _, _, _, _, _ => none
     | _ => none)
  | _ + 1, '\\' :: 'N' :: _ => none
  | fuel + 1, '\\' :: c :: rest =>
    if c = '\n' then decodeUEGo fuel rest
    else if c = 'n' then (decodeUEGo fuel rest).map (fun l => '\n' :: l)
    else if c = 't' then (decodeUEGo fuel rest).map (fun l => '\t' :: l)
    else if c = 'r' then (decodeUEGo fuel rest).map (fun l => '\r' :: l)
    else if c = 'a' then (decodeUEGo fuel rest).map (fun l => Char.ofNat 7 :: l)
    else if c = 'b' then (decodeUEGo fuel rest).map (fun l => Char.ofNat 8 :: l)
    else if c = 'f' then (decodeUEGo fuel rest).map (fun l => Char.ofNat 12 :: l)
    else if c = 'v' then (decodeUEGo fuel rest).map (fun l => Char.ofNat 11 :: l)
    else if c = '\\' then (decodeUEGo fuel rest).map (fun l => '\\' :: l)
    else if c = '\'' then (decodeUEGo fuel rest).map (fun l => '\'' :: l)
    else if c = '"' then (decodeUEGo fuel rest).map (fun l => '"' :: l)
    else
      match octVal? c with
      | some v1 =>
        let p := octTake v1 rest
        (decodeUEGo fuel p.2).map (fun l => Char.ofNat p.1 :: l)
      | none => (decodeUEGo fuel rest).map (fun l => '\\' :: c :: l)
  | fuel + 1, c :: rest => (decodeUEGo fuel rest).map (fun l => c :: l)

/-- Embedding of `codecs.decode(s, "unicode_escape")`: `none` marks a
raised `UnicodeDecodeError`. -/
def decodeUE (s : String) : Option String :=
  let bytes := ((s.toList.map utf8Bytes).flatten).map Char.ofNat
  (decodeUEGo bytes.length bytes).map String.mk

/-! ## shlex tokenization

Embedding of `shlex.split` in its POSIX whitespace-split mode as the
REPL uses it: whitespace separates tokens; single quotes protect
everything up to the closing quote; inside double quotes a backslash
escapes only the backslash and the double quote and is otherwise kept
together with the following character; outside quotes a backslash
makes the next character literal; an unterminated quote or a trailing
backslash raises `ValueError`. -/

/-- Tokenizer state: between tokens, inside a token, inside single or
double quotes, or after a backslash (outside or inside double
quotes). -/
inductive ShState where
  | ws
  | word
  | squote
  | dquote
  | esc
  | escDq

/-- Emit the pending token: a token is produced when characters were
accumulated or a quote was seen (so empty quotes yield an empty
token). -/
def shEmit (tok : List Char) (q : Bool) : List String :=
  if tok ≠ [] ∨ q then [String.mk tok] else []

/-- The `shlex` state machine over the input characters, carrying the
pending token, the seen-a-quote flag and the emitted tokens. -/
def shlexGo : ShState → List Char → List Char → Bool → List String → Except String (List String)
  | .ws, [], _, _, acc => .ok acc
  | .ws, c :: rest, _, _, acc =>
    if isShlexSpace c then shlexGo .ws rest [] false acc
    else if c = '\\' then shlexGo .esc rest [] false acc
    else if c = '\'' then shlexGo .squote rest [] false acc
    else if c = '"' then shlexGo .dquote rest [] false acc
    else shlexGo .word rest [c] false acc
  | .word, [], tok, q, acc => .ok (acc ++ shEmit tok q)
  | .word, c :: rest, tok, q, acc =>
    if isShlexSpace c then shlexGo .ws rest [] false (acc ++ shEmit tok q)
    else if c = '\'' then shlexGo .squote rest tok q acc
    else if c = '"' then shlexGo .dquote rest tok q acc
    else if c = '\\' then shlexGo .esc rest tok q acc
    else shlexGo .word rest (tok ++ [c]) q acc
  | .squote, [], _, _, _ => .error "No closing quotation"
  | .squote, c :: rest, tok, _, acc =>
    if c = '\'' then shlexGo .word rest tok true acc
    else shlexGo .squote rest (tok ++ [c]) true acc
  | .dquote, [], _, _, _ => .error "No closing quotation"
  | .dquote, c :: rest, tok, _, acc =>
    if c = '"' then shlexGo .word rest tok true acc
    else if c = '\\' then shlexGo .escDq rest tok true acc
    else shlexGo .dquote rest (tok ++ [c]) true acc
  | .esc, [], _, _, _ => .error "No escaped character"
  | .esc, c :: rest, tok, q, acc => shlexGo .word rest (tok ++ [c]) q acc
  | .escDq, [], _, _, _ => .error "No escaped character"
  | .escDq, c :: rest, tok, _, acc =>
    if c = '\\' ∨ c = '"' then shlexGo .dquote rest (tok ++ [c]) true acc
    else shlexGo .dquote rest (tok ++ ['\\', c]) true acc

/-- Embedding of `shlex.split`. -/
def pyShlexSplit (s : String) : Except String (List String) :=
  shlexGo .ws s.toList [] false []

/-! ## REPL step -/

/-- Result of the inline flag-parsing loop of the query path
(verse_notes.py lines 442-491). -/
inductive FlagResult where
  | err (msg : String)
  | crash (joinerArg : String)
  | ok (query_parts : List String) (c s v : Bool) (note_level : Int) (joiner : Option String)
deriving Repr, DecidableEq

/-- Embedding of the flag loop (verse_notes.py lines 448-491).  The
`-j` decode at line 464 runs outside every `try`, so a joiner
argument whose escape decoding raises crashes the process: the
`crash` constructor records that uncaught exception. -/
def flagLoop : List String → List String → Bool → Bool → Bool → Int → Option String → FlagResult
  | [], qp, c, s, v, note_level, joiner => .ok qp c s v note_level joiner
  | p :: rest, qp, c, s, v, note_level, joiner =>
    if p = "-c" then flagLoop rest qp true s v note_level joiner
    else if p = "-s" then flagLoop rest qp c true v note_level joiner
    else if p = "-v" then
      flagLoop rest qp c s true (if note_level = 0 then 2 else note_level) joiner
    else if p = "-j" then
      match rest with
      | jArg :: rest2 =>
        (match decodeUE jArg with
         | some d => flagLoop rest2 qp c s v note_level (some d)
         | none => .crash jArg)
      | [] => .err "Error: -j flag requires a joiner string argument."
    else if p = "-n" then
      match rest with
      | nArg :: rest2 =>
        (match pyInt? nArg with
         | some lv =>
           if 1 ≤ lv ∧ lv ≤ 4 then flagLoop rest2 qp c s v lv joiner
           else .err "Error: -n level must be between 1 and 4."
         | none => .err "Error: -n flag requires a number (1-4).")
      | [] => .err "Error: -n flag requires a level number (1-4)."
    else flagLoop rest (qp ++ [p]) c s v note_level joiner

/-- One observable outcome of a REPL iteration. -/
inductive ReplOut where
  | quit
  | skip
  | ok (msg : String)
  | err (msg : String)
  | fetch (query : String) (copy : Bool) (note_level : Int) (spacious : Bool) (joiner : Option String)
  | crash (joinerArg : String)
deriving Repr, DecidableEq

/-- Query path of the REPL after tokenization (verse_notes.py lines
442-505).  The path never touches the note store; a `fetch` outcome
hands the query and display options to `fetch_and_display_verses`,
which only reads the store. -/
def queryOut (parts : List String) : ReplOut :=
  match flagLoop parts [] false false false 0 none with
  | .err m => .err m
  | .crash j => .crash j
  | .ok qp c s v note_level joiner =>
    let verse_query := String.intercalate " " qp
    if verse_query = "" then
      if c ∨ s ∨ v ∨ joiner ≠ none ∨ note_level > 0 then
        .err "Error: Flags must be used with a verse reference."
      else .skip
    else .fetch verse_query c note_level s joiner

/-- The `/addnote` command handler (verse_notes.py lines 323-360),
given the tokens after the command word. -/
def addnoteStep (store : Store) (rest : List String) : Store × ReplOut :=
  match rest with
  | ref :: n0 :: ns =>
    let note_text := String.intercalate " " (n0 :: ns)
    let (book?, chapter?, verse_key?) := parse_reference ref
    if truthy book? = false then
      (store, .err ("Error: Invalid reference format " ++ ref))
    else
      (add_note store (book?.getD "") chapter? verse_key? note_text, .ok "note added")
  | _ => (store, .err "Usage: /addnote")

/-- The `/delnote` command handler (verse_notes.py lines 362-403),
given the tokens after the command word.  A non-integer note number
raises at line 374, outside the inner `try`, and is caught by the
generic handler of the command block; the error outcomes leave the
store exactly as the Python exception paths do. -/
def delnoteStep (store : Store) (rest : List String) : Store × ReplOut :=
  match rest with
  | [ref, note_num_str] =>
    let (book?, chapter?, verse_key?) := parse_reference ref
    if truthy book? = false then
      (store, .err ("Error: Invalid reference format " ++ ref))
    else
      match pyInt? note_num_str with
      | none => (store, .err "Error processing command: invalid literal for int")
      | some n =>
        match delete_note store (book?.getD "") chapter? verse_key? n with
        | (.notFound, _) => (store, .err ("Error: No notes found for reference " ++ ref))
        | (.outOfRange len, _) =>
          (store, .err ("Error: Invalid note number. Must be between 1 and " ++ toString len ++ "."))
        | (.deleted txt, store1) => (store1, .ok ("deleted " ++ txt))
  | _ => (store, .err "Usage: /delnote")

/-- The slash-command dispatcher (verse_notes.py lines 314-434).  The
whole block sits in a `try/except Exception`, so a tokenization error
is reported and the loop continues. -/
def cmdStep (store : Store) (t : String) : Store × ReplOut :=
  match pyShlexSplit t with
  | .error e => (store, .err ("Error processing command: " ++ e))
  | .ok [] => (store, .err "Error processing command: list index out of range")
  | .ok (cmd0 :: rest) =>
    let command := pyLower cmd0
    if command = "/help" then (store, .ok "help")
    else if command = "/addnote" then addnoteStep store rest
    else if command = "/delnote" then delnoteStep store rest
    else if command = "/allnotes" then (store, .ok "allnotes")
    else (store, .err ("Unknown command: " ++ command))

/-- Embedding of one iteration of `start_repl` (verse_notes.py lines
305-505): strip the line, recognize quit/exit, skip empty input,
dispatch slash commands, otherwise tokenize (a `ValueError` from
`shlex.split` is caught as a mismatched-quote report) and run the
query path. -/
def replStep (store : Store) (line : String) : Store × ReplOut :=
  let t := pyStrip line
  if pyLower t = "quit" ∨ pyLower t = "exit" then (store, .quit)
  else if t = "" then (store, .skip)
  else if (match t.toList with | '/' :: _ => true | _ => false) then cmdStep store t
  else
    match pyShlexSplit t with
    | .error _ => (store, .err "Error: Mismatched quotes in input.")
    | .ok parts => (store, queryOut parts)

/-! ## Derived access paths and spec-side group predicates -/

/-- The book entry the resolver reaches: the book coordinate is
truthy and present in the store. -/
def bookOf (store : Store) (book? : Option String) : Option BookEntry :=
  if truthy book? = false then none else alookup (book?.getD "") store

/-- The chapter entry the resolver reaches. -/
def chapterOf (store : Store) (book? chapter? : Option String) : Option ChapterEntry :=
  (bookOf store book?).bind fun be =>
    if truthy chapter? = false then none else alookup (chapter?.getD "") be.chapters

/-- The verses dict the resolver reaches: the verse key is truthy and
the chapter has a nonempty verses dict. -/
def versesOf (store : Store) (book? chapter? verse_key? : Option String) : Option (List (String × List String)) :=
  (chapterOf store book? chapter?).bind fun ce =>
    if truthy verse_key? = false then none
    else if ce.verses = [] then none
    else some ce.verses

/-- Transcription of the group-membership condition stated by the
spec: the stored key contains a hyphen, differs from the target key,
and splits into exactly two integers whose range contains the target
number. -/
def groupKeyMatches (num : Int) (vk k : String) : Bool :=
  hasHyphen k && !(k == vk) &&
    (match pySplitHyphen k with
     | [a, b] =>
       match pyInt? a, pyInt? b with
       | some s, some e => decide (s ≤ num ∧ num ≤ e)
       | _, _ => false
     | _ => false)

/-- Transcription of the group list the spec describes: the notes of
every matching stored key, in store order. -/
def groupSpec (num : Int) (vk : String) (verses : List (String × List String)) : List String :=
  ((verses.filter (fun kv => groupKeyMatches num vk kv.1)).map Prod.snd).flatten

/-- A stored key on which the group loop raises `ValueError`: it
reaches the two-part `int` conversion and some part is not an
integer. -/
def poisonKey (vk k : String) : Bool :=
  hasHyphen k && !(k == vk) &&
    (match pySplitHyphen k with
     | [a, b] => (pyInt? a).isNone || (pyInt? b).isNone
     | _ => false)

/-! ## Helper lemmas -/

theorem alookup_aupdate_self (k : String) (f : α → α) (l : List (String × α)) :
    alookup k (aupdate k f l) = (alookup k l).map f := by
  induction l with
  | nil => rfl
  | cons hd tl ih =>
    obtain ⟨k₁, v⟩ := hd
    by_cases h : k₁ = k
    · simp [alookup, aupdate, h]
    · simp [alookup, aupdate, h, ih]

theorem eraseIdx_len (l : List α) (k : Nat) (h : k < l.length) :
    (l.eraseIdx k).length + 1 = l.length := by
  induction l generalizing k with
  | nil => simp at h
  | cons hd tl ih =>
    cases k with
    | zero => simp [List.eraseIdx]
    | succ k =>
      simp only [List.eraseIdx, List.length_cons]
      rw [ih k (by simpa using h)]

theorem eraseIdx_getD_lt (l : List String) (k i : Nat) (h : i < k) :
    (l.eraseIdx k).getD i "" = l.getD i "" := by
  induction l generalizing k i with
  | nil => simp [List.eraseIdx]
  | cons hd tl ih =>
    cases k with
    | zero => omega
    | succ k =>
      cases i with
      | zero => simp [List.eraseIdx]
      | succ i =>
        simp only [List.eraseIdx, List.getD_cons_succ]
        exact ih k i (by omega)

theorem eraseIdx_getD_ge (l : List String) (k i : Nat) (hk : k ≤ i) (hi : i + 1 < l.length) :
    (l.eraseIdx k).getD i "" = l.getD (i + 1) "" := by
  induction l generalizing k i with
  | nil => simp at hi
  | cons hd tl ih =>
    cases k with
    | zero => simp [List.eraseIdx]
    | succ k =>
      cases i with
      | zero => omega
      | succ i =>
        simp only [List.eraseIdx, List.getD_cons_succ]
        exact ih k i (by omega) (by simpa using hi)

theorem gnVerseStage_book (n : NotesResult) (vs : List (String × List String)) (vk : String) (L : Int) :
    (gnVerseStage n vs vk L).book = n.book := by
  simp only [gnVerseStage]
  split_ifs <;> rfl

theorem gnVerseStage_chapter (n : NotesResult) (vs : List (String × List String)) (vk : String) (L : Int) :
    (gnVerseStage n vs vk L).chapter = n.chapter := by
  simp only [gnVerseStage]
  split_ifs <;> rfl

theorem gnVerseStage_individual (n : NotesResult) (vs : List (String × List String)) (vk : String) (L : Int) :
    (gnVerseStage n vs vk L).individual = if L ≥ 1 then (alookup vk vs).getD [] else n.individual := by
  simp only [gnVerseStage]
  split_ifs <;> rfl

theorem gnVerseStage_group (n : NotesResult) (vs : List (String × List String)) (vk : String) (L : Int) :
    (gnVerseStage n vs vk L).group = if L ≥ 2 then groupResolve vs vk else n.group := by
  simp only [gnVerseStage]
  split_ifs <;> rfl

theorem gnChapterStage_book (n : NotesResult) (be : BookEntry) (c v : Option String) (L : Int) :
    (gnChapterStage n be c v L).book = n.book := by
  cases hc : truthy c with
  | false => simp [gnChapterStage, hc]
  | true =>
    simp only [gnChapterStage, hc]
    rw [if_neg (by simp)]
    cases halk : alookup (c.getD "") be.chapters with
    | none => simp [halk]
    | some ce =>
      simp only [halk]
      split_ifs <;> simp [gnVerseStage_book]

theorem gnChapterStage_chapter (n : NotesResult) (be : BookEntry) (c v : Option String) (L : Int) :
    (gnChapterStage n be c v L).chapter =
      match (if truthy c = false then none else alookup (c.getD "") be.chapters) with
      | none => n.chapter
      | some ce => if L ≥ 3 then ce.notes else n.chapter := by
  cases hc : truthy c with
  | false => simp [gnChapterStage, hc]
  | true =>
    simp only [gnChapterStage, hc]
    rw [if_neg (by simp), if_neg (by simp)]
    cases halk : alookup (c.getD "") be.chapters with
    | none => simp [halk]
    | some ce =>
      simp only [halk]
      split_ifs <;> simp [gnVerseStage_chapter]

theorem gnChapterStage_individual (n : NotesResult) (be : BookEntry) (c v : Option String) (L : Int) :
    (gnChapterStage n be c v L).individual =
      match (if truthy c = false then none else alookup (c.getD "") be.chapters) with
      | none => n.individual
      | some ce =>
        if truthy v = false then n.individual
        else if ce.verses = [] then n.individual
        else if L ≥ 1 then (alookup (v.getD "") ce.verses).getD [] else n.individual := by
  cases hc : truthy c with
  | false => simp [gnChapterStage, hc]
  | true =>
    simp only [gnChapterStage, hc]
    rw [if_neg (by simp), if_neg (by simp)]
    cases halk : alookup (c.getD "") be.chapters with
    | none => simp [halk]
    | some ce =>
      simp only [halk]
      split_ifs <;> simp [gnVerseStage_individual] <;> intro h2 <;> omega

theorem gnChapterStage_group (n : NotesResult) (be : BookEntry) (c v : Option String) (L : Int) :
    (gnChapterStage n be c v L).group =
      match (if truthy c = false then none else alookup (c.getD "") be.chapters) with
      | none => n.group
      | some ce =>
        if truthy v = false then n.group
        else if ce.verses = [] then n.group
        else if L ≥ 2 then groupResolve ce.verses (v.getD "") else n.group := by
  cases hc : truthy c with
  | false => simp [gnChapterStage, hc]
  | true =>
    simp only [gnChapterStage, hc]
    rw [if_neg (by simp), if_neg (by simp)]
    cases halk : alookup (c.getD "") be.chapters with
    | none => simp [halk]
    | some ce =>
      simp only [halk]
      split_ifs <;> simp [gnVerseStage_group] <;> intro h2 <;> omega

theorem gn_book (store : Store) (b c v : Option String) (L : Int) :
    (get_notes_for_reference store b c v L).book =
      match bookOf store b with
      | none => []
      | some be => if L ≥ 4 then be.notes else [] := by
  cases hb : truthy b with
  | false => simp [get_notes_for_reference, bookOf, hb, emptyNotes]
  | true =>
    simp only [get_notes_for_reference, bookOf, hb]
    rw [if_neg (by simp), if_neg (by simp)]
    cases halk : alookup (b.getD "") store with
    | none => simp [halk, emptyNotes]
    | some be =>
      simp only [halk, gnChapterStage_book]
      split_ifs <;> simp [emptyNotes]

theorem gn_chapter (store : Store) (b c v : Option String) (L : Int) :
    (get_notes_for_reference store b c v L).chapter =
      match chapterOf store b c with
      | none => []
      | some ce => if L ≥ 3 then ce.notes else [] := by
  cases hb : truthy b with
  | false => simp [get_notes_for_reference, chapterOf, bookOf, hb, emptyNotes]
  | true =>
    simp only [get_notes_for_reference, chapterOf, bookOf, hb]
    rw [if_neg (by simp), if_neg (by simp)]
    cases halk : alookup (b.getD "") store with
    | none => simp [halk, emptyNotes]
    | some be =>
      simp only [halk, gnChapterStage_chapter, Option.some_bind]
      have h1 : (if L ≥ 4 then { emptyNotes with book := be.notes } else emptyNotes).chapter = [] := by
        split_ifs <;> rfl
      cases hsc : (if truthy c = false then none else alookup (c.getD "") be.chapters) with
      | none => simp [hsc, h1]
      | some ce => simp only [hsc]; split_ifs <;> simp [h1, emptyNotes]

theorem gn_individual (store : Store) (b c v : Option String) (L : Int) :
    (get_notes_for_reference store b c v L).individual =
      match versesOf store b c v with
      | none => []
      | some vs => if L ≥ 1 then (alookup (v.getD "") vs).getD [] else [] := by
  cases hb : truthy b with
  | false => simp [get_notes_for_reference, versesOf, chapterOf, bookOf, hb, emptyNotes]
  | true =>
    simp only [get_notes_for_reference, versesOf, chapterOf, bookOf, hb]
    rw [if_neg (by simp), if_neg (by simp)]
    cases halk : alookup (b.getD "") store with
    | none => simp [halk, emptyNotes]
    | some be =>
      simp only [halk, gnChapterStage_individual, Option.some_bind]
      have h1 : (if L ≥ 4 then { emptyNotes with book := be.notes } else emptyNotes).individual = [] := by
        split_ifs <;> rfl
      cases hsc : (if truthy c = false then none else alookup (c.getD "") be.chapters) with
      | none => simp [hsc, h1]
      | some ce =>
        simp only [hsc, Option.some_bind]
        split_ifs <;> simp_all

theorem gn_group (store : Store) (b c v : Option String) (L : Int) :
    (get_notes_for_reference store b c v L).group =
      match versesOf store b c v with
      | none => []
      | some vs => if L ≥ 2 then groupResolve vs (v.getD "") else [] := by
  cases hb : truthy b with
  | false => simp [get_notes_for_reference, versesOf, chapterOf, bookOf, hb, emptyNotes]
  | true =>
    simp only [get_notes_for_reference, versesOf, chapterOf, bookOf, hb]
    rw [if_neg (by simp), if_neg (by simp)]
    cases halk : alookup (b.getD "") store with
    | none => simp [halk, emptyNotes]
    | some be =>
      simp only [halk, gnChapterStage_group, Option.some_bind]
      have h1 : (if L ≥ 4 then { emptyNotes with book := be.notes } else emptyNotes).group = [] := by
        split_ifs <;> rfl
      cases hsc : (if truthy c = false then none else alookup (c.getD "") be.chapters) with
      | none => simp [hsc, h1]
      | some ce =>
        simp only [hsc, Option.some_bind]
        split_ifs <;> simp_all

/-! ## Claim theorems -/

/-- C6: `parse_reference "1 John 3:16-17"` yields book `"1 John"`
(leading digit retained, title-cased), chapter `"3"`, and the whole
hyphenated range `"16-17"` as the verse key. -/
theorem claim_C6 :
    parse_reference "1 John 3:16-17" = (some "1 John", some "3", some "16-17") := by
  decide

/-- C4: with the stored verse key `"16-18"` holding note `"g"` in
John 3, resolving verse 17 at level 2 yields group `["g"]` and
resolving verse 19 yields an empty group. -/
theorem claim_C4 :
    (get_notes_for_reference [("John", ⟨[], [("3", ⟨[], [("16-18", ["g"])]⟩)]⟩)]
        (some "John") (some "3") (some "17") 2).group = ["g"] ∧
    (get_notes_for_reference [("John", ⟨[], [("3", ⟨[], [("16-18", ["g"])]⟩)]⟩)]
        (some "John") (some "3") (some "19") 2).group = [] := by
  decide

/-- C7 counterexample: a present document whose bytes are not
decodable in the text-mode encoding is an unparsable persisted
document, yet loading it does not reset the store and warn: the
`UnicodeDecodeError` raised inside `json.load` is not caught by the
`except (json.JSONDecodeError, IOError)` clause at line 82 and the
process crashes at startup, falsifying the claim that loading never
crashes. -/
theorem claim_C7_counterexample :
    load_notes NotesFile.undecodable = LoadOutcome.crash :=
  rfl

/-- C7 as amended: an absent document yields the empty store
silently; a document whose read raises `IOError` or whose parse
raises `JSONDecodeError` resets the store to empty with a warning; a
valid document is loaded as-is; and the only file state on which
loading crashes is a present document with undecodable bytes. -/
theorem claim_C7_amended :
    load_notes NotesFile.absent = LoadOutcome.loaded [] false ∧
    load_notes NotesFile.unreadable = LoadOutcome.loaded [] true ∧
    load_notes NotesFile.malformed = LoadOutcome.loaded [] true ∧
    (∀ s : Store, load_notes (NotesFile.valid s) = LoadOutcome.loaded s false) ∧
    (∀ f : NotesFile, load_notes f = LoadOutcome.crash → f = NotesFile.undecodable) := by
  refine ⟨rfl, rfl, rfl, fun _ => rfl, fun f hf => ?_⟩
  cases f <;> first | rfl | simp [load_notes] at hf

/-- Witness for the amended C7: a valid one-book document loads
as-is, and the crash case is exercised at the undecodable state. -/
theorem claim_C7_witness :
    load_notes (NotesFile.valid [("John", ⟨["a"], []⟩)]) =
      LoadOutcome.loaded [("John", ⟨["a"], []⟩)] false ∧
    NotesFile.undecodable = NotesFile.undecodable :=
  ⟨claim_C7_amended.2.2.2.1 [("John", ⟨["a"], []⟩)],
   claim_C7_amended.2.2.2.2 NotesFile.undecodable rfl⟩

/-- C9: the clipboard strings are joined with a newline by default,
with a blank line under the spacious flag and no explicit joiner, and
an explicit joiner always overrides both. -/
theorem claim_C9 (vs : List (String × String)) (sp : Bool) (j : String) :
    clipboard_text vs none false = String.intercalate "\n" (copyLines vs) ∧
    clipboard_text vs none true = String.intercalate "\n\n" (copyLines vs) ∧
    clipboard_text vs (some j) sp = String.intercalate j (copyLines vs) := by
  refine ⟨?_, ?_, ?_⟩ <;> simp [clipboard_text, select_joiner]

/-- C10: note resolution is read-only and total in its arguments: for
every store, coordinate and integer level the call leaves the store
unchanged and returns the four scope lists, all empty when the book
is null, empty or absent. -/
theorem claim_C10 (store : Store) (b c v : Option String) (L : Int) :
    (get_notes_st store b c v L).1 = store ∧
    (bookOf store b = none → (get_notes_st store b c v L).2 = emptyNotes) := by
  refine ⟨rfl, fun h => ?_⟩
  have hch : chapterOf store b c = none := by simp [chapterOf, h]
  have hvs : versesOf store b c v = none := by simp [versesOf, hch]
  ext
  · simp [get_notes_st, gn_book, h, emptyNotes]
  · simp [get_notes_st, gn_chapter, hch, emptyNotes]
  · simp [get_notes_st, gn_group, hvs, emptyNotes]
  · simp [get_notes_st, gn_individual, hvs, emptyNotes]

/-- Witness for C10 at a concrete store and an out-of-range level. -/
theorem claim_C10_witness :
    (get_notes_st [] (some "John") none none 7).1 = ([] : Store) ∧
    (get_notes_st [] (some "John") none none 7).2 = emptyNotes :=
  ⟨(claim_C10 [] (some "John") none none 7).1,
   (claim_C10 [] (some "John") none none 7).2 rfl⟩

/-- C3: round-trip of add and resolve: adding a note at a
book-chapter-verse coordinate into the empty store and resolving the
same coordinate at level 1 yields exactly that note as the individual
list. -/
theorem claim_C3 (b c v note : String) (hb : b ≠ "") (hc : c ≠ "") (hv : v ≠ "") :
    (get_notes_for_reference (add_note [] b (some c) (some v) note)
        (some b) (some c) (some v) 1).individual = [note] := by
  have hstore : add_note [] b (some c) (some v) note =
      [(b, ⟨[], [(c, ⟨[], [(v, [note])]⟩)]⟩)] := by
    simp [add_note, alookup, aupdate, truthy, hc, hv]
  rw [hstore, gn_individual]
  have hvs : versesOf [(b, ⟨[], [(c, ⟨[], [(v, [note])]⟩)]⟩)] (some b) (some c) (some v) =
      some [(v, [note])] := by
    simp [versesOf, chapterOf, bookOf, truthy, alookup, hb, hc, hv]
  rw [hvs]
  simp [alookup]

/-- Witness for C3 at the coordinate John 3:16 of the spec. -/
theorem claim_C3_witness :
    (get_notes_for_reference (add_note [] "John" (some "3") (some "16") "x")
        (some "John") (some "3") (some "16") 1).individual = ["x"] :=
  claim_C3 "John" "3" "16" "x" (by decide) (by decide) (by decide)

/-- C8: level monotonicity: for a fixed reference and store, every
scope populated at level `L - 1` is still populated at level `L`, for
`L` between 2 and 4. -/
theorem claim_C8 (store : Store) (b c v : Option String) (L : Int) (h2 : 2 ≤ L) (h4 : L ≤ 4) :
    ((get_notes_for_reference store b c v (L - 1)).book ≠ [] →
      (get_notes_for_reference store b c v L).book ≠ []) ∧
    ((get_notes_for_reference store b c v (L - 1)).chapter ≠ [] →
      (get_notes_for_reference store b c v L).chapter ≠ []) ∧
    ((get_notes_for_reference store b c v (L - 1)).group ≠ [] →
      (get_notes_for_reference store b c v L).group ≠ []) ∧
    ((get_notes_for_reference store b c v (L - 1)).individual ≠ [] →
      (get_notes_for_reference store b c v L).individual ≠ []) := by
  refine ⟨?_, ?_, ?_, ?_⟩
  · simp only [gn_book]
    cases hbk : bookOf store b with
    | none => simp
    | some be => split_ifs <;> intro hne <;> first | exact hne | exact absurd rfl hne | omega
  · simp only [gn_chapter]
    cases hch : chapterOf store b c with
    | none => simp
    | some ce => split_ifs <;> intro hne <;> first | exact hne | exact absurd rfl hne | omega
  · simp only [gn_group]
    cases hvs : versesOf store b c v with
    | none => simp
    | some vs => split_ifs <;> intro hne <;> first | exact hne | exact absurd rfl hne | omega
  · simp only [gn_individual]
    cases hvs : versesOf store b c v with
    | none => simp
    | some vs => split_ifs <;> intro hne <;> first | exact hne | exact absurd rfl hne | omega

/-- Witness for C8 at level 2 on a store with an individual note:
the individual scope populated at level 1 is still populated at
level 2. -/
theorem claim_C8_witness :
    (get_notes_for_reference [("John", ⟨[], [("3", ⟨[], [("16", ["x"])]⟩)]⟩)]
        (some "John") (some "3") (some "16") 2).individual ≠ [] :=
  (claim_C8 [("John", ⟨[], [("3", ⟨[], [("16", ["x"])]⟩)]⟩)]
    (some "John") (some "3") (some "16") 2 (by decide) (by decide)).2.2.2 (by decide)

theorem groupLoop_append (num : Int) (vk : String) (verses : List (String × List String))
    (acc : List String) (hp : ∀ kv ∈ verses, poisonKey vk kv.1 = false) :
    groupLoop num vk verses acc = acc ++ groupSpec num vk verses := by
  induction verses generalizing acc with
  | nil => simp [groupLoop, groupSpec]
  | cons kv rest ih =>
    obtain ⟨key, gnotes⟩ := kv
    have hpk : poisonKey vk key = false := hp (key, gnotes) (by simp)
    have hp2 : ∀ kv ∈ rest, poisonKey vk kv.1 = false := fun kv hmem => hp kv (by simp [hmem])
    by_cases hc : ¬ hasHyphen key ∨ key = vk
    · have hkm : groupKeyMatches num vk key = false := by
        rcases hc with hc | hc
        · simp only [Bool.not_eq_true] at hc
          simp [groupKeyMatches, hc]
        · simp [groupKeyMatches, hc]
      simp only [groupLoop, if_pos hc, groupSpec, List.filter_cons, hkm]
      rw [ih acc hp2]
      simp [groupSpec]
    · have hkm : hasHyphen key = true ∧ ¬ key = vk := by
        push_neg at hc
        exact ⟨Bool.not_eq_false _ ▸ hc.1, hc.2⟩
      cases hsp : pySplitHyphen key with
      | nil =>
        have hgm : groupKeyMatches num vk key = false := by
          simp [groupKeyMatches, hsp]
        simp only [groupLoop, if_neg hc, hsp, groupSpec, List.filter_cons, hgm]
        rw [ih acc hp2]
        simp [groupSpec]
      | cons a ts =>
        cases ts with
        | nil =>
          have hgm : groupKeyMatches num vk key = false := by
            simp [groupKeyMatches, hsp]
          simp only [groupLoop, if_neg hc, hsp, groupSpec, List.filter_cons, hgm]
          rw [ih acc hp2]
          simp [groupSpec]
        | cons b ts2 =>
          cases ts2 with
          | cons x ts3 =>
            have hgm : groupKeyMatches num vk key = false := by
              simp [groupKeyMatches, hsp]
            simp only [groupLoop, if_neg hc, hsp, groupSpec, List.filter_cons, hgm]
            rw [ih acc hp2]
            simp [groupSpec]
          | nil =>
            have hsome : (pyInt? a).isSome ∧ (pyInt? b).isSome := by
              have := hpk
              simp only [poisonKey, hsp, hkm.1, Bool.true_and] at this
              rcases h1 : pyInt? a with _ | s <;> rcases h2 : pyInt? b with _ | e <;>
                simp [h1, h2, hkm.2] at this <;> simp
            rcases h1 : pyInt? a with _ | s
            · simp [h1] at hsome
            rcases h2 : pyInt? b with _ | e
            · simp [h2] at hsome
            have hgm : groupKeyMatches num vk key = decide (s ≤ num ∧ num ≤ e) := by
              simp [groupKeyMatches, hsp, h1, h2, hkm.1, hkm.2]
            simp only [groupLoop, if_neg hc, hsp, h1, h2]
            by_cases hr : s ≤ num ∧ num ≤ e
            · rw [if_pos hr, ih (acc ++ gnotes) hp2]
              simp only [groupSpec, List.filter_cons, hgm, decide_eq_true hr]
              simp [groupSpec, List.append_assoc]
            · rw [if_neg hr, ih acc hp2]
              have hd : decide (s ≤ num ∧ num ≤ e) = false := by simpa using hr
              simp [groupSpec, List.filter_cons, hgm, hd]

/-- C1 counterexample: with the stored verses dict
`[("16-x", ["b"]), ("16-18", ["g"])]` and target verse key `"16"`,
the key `"16-18"` satisfies the membership condition the claim states
(hyphenated, different from the target, two integers bracketing 16),
so the claim requires its note `"g"` in the group list; but the
malformed key `"16-x"` reaches the two-part `int` conversion first,
the raised `ValueError` aborts the whole loop, and the group list
comes back empty. -/
theorem claim_C1_counterexample :
    groupKeyMatches 16 "16" "16-18" = true ∧
    (get_notes_for_reference
        [("John", ⟨[], [("3", ⟨[], [("16-x", ["b"]), ("16-18", ["g"])]⟩)]⟩)]
        (some "John") (some "3") (some "16") 2).group = [] := by
  decide

/-- C1 as amended: when the target verse key has a parsable leading
integer and no stored verse key is poisonous (hyphenated, different
from the target, splitting into exactly two parts of which some part
is not an integer), the group list at level 2 or above is exactly the
concatenation, in store order, of the notes of every stored key that
is hyphenated, differs from the target and splits into two integers
bracketing the target number; keys that do not split into exactly two
parts are silently skipped and affect nothing. -/
theorem claim_C1_amended (store : Store) (b c v : Option String) (L : Int)
    (vs : List (String × List String)) (num : Int)
    (hvs : versesOf store b c v = some vs)
    (hL : L ≥ 2)
    (hnum : pyInt? ((pySplitHyphen (v.getD "")).headD "") = some num)
    (hp : ∀ kv ∈ vs, poisonKey (v.getD "") kv.1 = false) :
    (get_notes_for_reference store b c v L).group = groupSpec num (v.getD "") vs := by
  have h1 : (get_notes_for_reference store b c v L).group = groupResolve vs (v.getD "") := by
    rw [gn_group, hvs]
    simp [hL]
  rw [h1]
  unfold groupResolve
  rw [hnum]
  simpa using groupLoop_append num (v.getD "") vs [] hp

/-- Witness for the amended C1 on a poison-free store. -/
theorem claim_C1_witness :
    (get_notes_for_reference [("John", ⟨[], [("3", ⟨[], [("16-18", ["g"])]⟩)]⟩)]
        (some "John") (some "3") (some "17") 2).group = ["g"] :=
  (claim_C1_amended [("John", ⟨[], [("3", ⟨[], [("16-18", ["g"])]⟩)]⟩)]
      (some "John") (some "3") (some "17") 2 [("16-18", ["g"])] 17
      (by decide) (by decide) (by decide) (by decide)).trans (by decide)

theorem flagLoop_crash (parts : List String) :
    ∀ (qp : List String) (c s v : Bool) (lvl : Int) (j : Option String) (jb : String),
      flagLoop parts qp c s v lvl j = FlagResult.crash jb → decodeUE jb = none := by
  suffices H : ∀ (n : Nat) (parts : List String), parts.length ≤ n →
      ∀ (qp : List String) (c s v : Bool) (lvl : Int) (j : Option String) (jb : String),
        flagLoop parts qp c s v lvl j = FlagResult.crash jb → decodeUE jb = none from
    H parts.length parts le_rfl
  intro n
  induction n with
  | zero =>
    intro parts hlen qp c s v lvl j jb h
    cases parts with
    | nil => simp [flagLoop] at h
    | cons p rest => simp at hlen
  | succ n ihn =>
    intro parts hlen qp c s v lvl j jb h
    cases parts with
    | nil => simp [flagLoop] at h
    | cons p rest =>
      have hr : rest.length ≤ n := by simp at hlen; omega
      rw [flagLoop.eq_def] at h
      dsimp only at h
      split_ifs at h <;>
        first
          | exact ihn rest hr _ _ _ _ _ _ _ h
          | (cases rest with
             | nil => simp at h
             | cons arg rest2 =>
               (have hr2 : rest2.length ≤ n := by simp at hlen; omega
                dsimp only at h
                first
                  | (cases hd : decodeUE arg with
                     | some d =>
                       rw [hd] at h
                       exact ihn rest2 hr2 _ _ _ _ _ _ _ h
                     | none =>
                       rw [hd] at h
                       have h9 : FlagResult.crash arg = FlagResult.crash jb := h
                       injection h9 with hq
                       exact hq ▸ hd)
                  | (cases hi : pyInt? arg with
                     | some lv =>
                       rw [hi] at h
                       dsimp only at h
                       split_ifs at h <;>
                         first
                           | exact ihn rest2 hr2 _ _ _ _ _ _ _ h
                           | simp at h
                     | none =>
                       rw [hi] at h
                       simp at h)))

theorem queryOut_crash (parts : List String) (jb : String) :
    queryOut parts = ReplOut.crash jb → decodeUE jb = none := by
  unfold queryOut
  cases hf : flagLoop parts [] false false false 0 none with
  | err m => intro h; simp at h
  | crash j =>
    intro h
    simp only [ReplOut.crash.injEq] at h
    exact h ▸ flagLoop_crash parts [] false false false 0 none j hf
  | ok qp c s v lvl j =>
    intro h
    dsimp only at h
    split_ifs at h <;> simp at h

theorem addnoteStep_err (store : Store) (rest : List String) (m : String) :
    (addnoteStep store rest).2 = ReplOut.err m → (addnoteStep store rest).1 = store := by
  unfold addnoteStep
  cases rest with
  | nil => intro _; rfl
  | cons ref rest1 =>
    cases rest1 with
    | nil => intro _; rfl
    | cons n0 ns =>
      rcases hpr : parse_reference ref with ⟨bq, cq, vq⟩
      simp only [hpr]
      split_ifs with h
      · intro _; rfl
      · intro hc; simp at hc

theorem addnoteStep_no_crash (store : Store) (rest : List String) (jb : String) :
    (addnoteStep store rest).2 ≠ ReplOut.crash jb := by
  unfold addnoteStep
  cases rest with
  | nil => simp
  | cons ref rest1 =>
    cases rest1 with
    | nil => simp
    | cons n0 ns =>
      rcases hpr : parse_reference ref with ⟨bq, cq, vq⟩
      simp only [hpr]
      split_ifs with h <;> simp

theorem delnoteStep_err (store : Store) (rest : List String) (m : String) :
    (delnoteStep store rest).2 = ReplOut.err m → (delnoteStep store rest).1 = store := by
  unfold delnoteStep
  cases rest with
  | nil => intro _; rfl
  | cons ref rest1 =>
    cases rest1 with
    | nil => intro _; rfl
    | cons n1 rest2 =>
      cases rest2 with
      | cons x xs => intro _; rfl
      | nil =>
        rcases hpr : parse_reference ref with ⟨bq, cq, vq⟩
        simp only [hpr]
        split_ifs with h
        · intro _; rfl
        · cases hi : pyInt? n1 with
          | none => intro _; rfl
          | some nn =>
            rcases hdel : delete_note store (bq.getD "") cq vq nn with ⟨out, store1⟩
            cases out <;> simp [hdel] <;> intro hc <;> simp at hc

theorem delnoteStep_no_crash (store : Store) (rest : List String) (jb : String) :
    (delnoteStep store rest).2 ≠ ReplOut.crash jb := by
  unfold delnoteStep
  cases rest with
  | nil => simp
  | cons ref rest1 =>
    cases rest1 with
    | nil => simp
    | cons n1 rest2 =>
      cases rest2 with
      | cons x xs => simp
      | nil =>
        rcases hpr : parse_reference ref with ⟨bq, cq, vq⟩
        simp only [hpr]
        split_ifs with h
        · simp
        · cases hi : pyInt? n1 with
          | none => simp
          | some nn =>
            rcases hdel : delete_note store (bq.getD "") cq vq nn with ⟨out, store1⟩
            cases out <;> simp [hdel]

theorem cmdStep_err (store : Store) (t : String) (m : String) :
    (cmdStep store t).2 = ReplOut.err m → (cmdStep store t).1 = store := by
  unfold cmdStep
  cases hs : pyShlexSplit t with
  | error e => intro _; rfl
  | ok parts =>
    cases parts with
    | nil => intro _; rfl
    | cons cmd0 rest =>
      dsimp only
      split_ifs with h1 h2 h3 h4
      · intro hc; simp at hc
      · exact addnoteStep_err store rest m
      · exact delnoteStep_err store rest m
      · intro hc; simp at hc
      · intro _; rfl

theorem cmdStep_no_crash (store : Store) (t : String) (jb : String) :
    (cmdStep store t).2 ≠ ReplOut.crash jb := by
  unfold cmdStep
  cases hs : pyShlexSplit t with
  | error e => simp
  | ok parts =>
    cases parts with
    | nil => simp
    | cons cmd0 rest =>
      dsimp only
      split_ifs with h1 h2 h3 h4
      · simp
      · exact addnoteStep_no_crash store rest jb
      · exact delnoteStep_no_crash store rest jb
      · simp
      · simp

/-- C2 counterexample: the input line `-j "\x" John 3` is a query
line with a malformed `-j` joiner argument (the truncated `\x`
escape); the claim requires it to be reported inline with the loop
continuing, but `codecs.decode` raises an uncaught
`UnicodeDecodeError` at line 464, outside every `try`, and the
process crashes. -/
theorem claim_C2_counterexample :
    replStep [] "-j \"\\x\" John 3" = ([], ReplOut.crash "\\x") := by
  decide

/-- C2 as amended: every reported user-input error (bad flag value,
missing flag argument, bad reference syntax, quoting mismatch, bad
note number) leaves the store unchanged and the loop continues; the
single exception to no-crash is a `-j` joiner argument whose
backslash-escape decoding fails, which raises an uncaught decoding
error and terminates the process. -/
theorem claim_C2_amended (store : Store) (line : String) :
    (∀ m, (replStep store line).2 = ReplOut.err m → (replStep store line).1 = store) ∧
    (∀ jb, (replStep store line).2 = ReplOut.crash jb → decodeUE jb = none) := by
  dsimp only [replStep]
  generalize pyStrip line = t
  by_cases h1 : pyLower t = "quit" ∨ pyLower t = "exit"
  · simp only [if_pos h1]
    exact ⟨fun m hm => by simp at hm, fun jb hjb => by simp at hjb⟩
  · simp only [if_neg h1]
    by_cases h2 : t = ""
    · simp only [if_pos h2]
      exact ⟨fun m hm => by simp at hm, fun jb hjb => by simp at hjb⟩
    · simp only [if_neg h2]
      by_cases h3 : (match t.toList with | '/' :: _ => true | _ => false) = true
      · simp only [if_pos h3]
        exact ⟨fun m => cmdStep_err store t m,
          fun jb hjb => absurd hjb (cmdStep_no_crash store t jb)⟩
      · simp only [if_neg h3]
        cases hs : pyShlexSplit t with
        | error e => exact ⟨fun m _ => rfl, fun jb hjb => by simp at hjb⟩
        | ok parts => exact ⟨fun m _ => rfl, fun jb hjb => queryOut_crash parts jb hjb⟩

/-- Witness for the amended C2: an out-of-range `-n` level is
reported and the store is untouched. -/
theorem claim_C2_witness :
    (replStep [] "-n 9 John 3").1 = ([] : Store) :=
  (claim_C2_amended [] "-n 9 John 3").1
    "Error: -n level must be between 1 and 4." (by decide)

/-- C5: `deleteNote` resolves the target list by the specificity of
the reference and reports not-found when any container on the path is
absent (store untouched); a 1-based position outside `[1, length]` is
rejected as out of range with the list unchanged; a valid position
removes and returns the entry at that position, the target list
shrinks by exactly one, entries before the position keep their
indices and entries after it shift down by one. -/
theorem claim_C5 (store : Store) (book : String) (c v : Option String) (p : Int) :
    (del_target store book c v = none →
      delete_note store book c v p = (DelOutcome.notFound, store)) ∧
    (∀ l, del_target store book c v = some l →
      (p < 1 ∨ (l.length : Int) < p) →
      delete_note store book c v p = (DelOutcome.outOfRange l.length, store)) ∧
    (∀ l, del_target store book c v = some l → 1 ≤ p → p ≤ (l.length : Int) →
      (delete_note store book c v p).1 = DelOutcome.deleted (l.getD (p - 1).toNat "") ∧
      del_target (delete_note store book c v p).2 book c v = some (l.eraseIdx (p - 1).toNat) ∧
      (l.eraseIdx (p - 1).toNat).length + 1 = l.length ∧
      (∀ i : Nat, i < (p - 1).toNat → (l.eraseIdx (p - 1).toNat).getD i "" = l.getD i "") ∧
      (∀ i : Nat, (p - 1).toNat ≤ i → i + 1 < l.length →
        (l.eraseIdx (p - 1).toNat).getD i "" = l.getD (i + 1) "")) := by
  refine ⟨?_, ?_, ?_⟩
  · intro h
    simp only [delete_note, h]
  · intro l hl hout
    simp only [delete_note, hl]
    rw [if_neg (by omega)]
  · intro l hl h1 h2
    have hcond : 0 ≤ p - 1 ∧ p - 1 < (l.length : Int) := by omega
    have hdn : delete_note store book c v p =
        (DelOutcome.deleted (l.getD (p - 1).toNat ""),
         if truthy c = false then
           aupdate book (fun be => { be with notes := l.eraseIdx (p - 1).toNat }) store
         else if truthy v = false then
           aupdate book (fun be =>
             { be with chapters := aupdate (c.getD "") (fun ce =>
               { ce with notes := l.eraseIdx (p - 1).toNat }) be.chapters }) store
         else
           aupdate book (fun be =>
             { be with chapters := aupdate (c.getD "") (fun ce =>
               { ce with verses := aupdate (v.getD "") (fun _ =>
                 l.eraseIdx (p - 1).toNat) ce.verses }) be.chapters }) store) := by
      simp only [delete_note, hl]
      rw [if_pos hcond]
    rw [hdn]
    refine ⟨rfl, ?_, eraseIdx_len l _ (by omega),
      fun i hi => eraseIdx_getD_lt l _ i hi,
      fun i hk hi => eraseIdx_getD_ge l _ i hk hi⟩
    by_cases hc : truthy c = false
    · rw [if_pos hc]
      simp only [del_target, if_pos hc] at hl ⊢
      obtain ⟨be, hbe, hbn⟩ := Option.map_eq_some'.mp hl
      rw [alookup_aupdate_self, hbe]
      simp
    · rw [if_neg hc]
      by_cases hv : truthy v = false
      · rw [if_pos hv]
        simp only [del_target, if_neg hc, if_pos hv] at hl ⊢
        obtain ⟨ce, hce, hcn⟩ := Option.map_eq_some'.mp hl
        obtain ⟨be, hbe, hcc⟩ := Option.bind_eq_some.mp hce
        rw [alookup_aupdate_self, hbe]
        simp only [Option.map_some', Option.some_bind]
        rw [alookup_aupdate_self, hcc]
        simp
      · rw [if_neg hv]
        simp only [del_target, if_neg hc, if_neg hv] at hl ⊢
        obtain ⟨ce, hce, hvv⟩ := Option.bind_eq_some.mp hl
        obtain ⟨be, hbe, hcc⟩ := Option.bind_eq_some.mp hce
        rw [alookup_aupdate_self, hbe]
        simp only [Option.map_some', Option.some_bind]
        rw [alookup_aupdate_self, hcc]
        simp only [Option.map_some', Option.some_bind]
        rw [alookup_aupdate_self, hvv]
        simp

/-- Witness for C5: a not-found deletion, an out-of-range deletion
and a valid deletion on concrete stores. -/
theorem claim_C5_witness :
    delete_note [("John", ⟨["a", "b"], []⟩)] "John" none none 5 =
      (DelOutcome.outOfRange 2, [("John", ⟨["a", "b"], []⟩)]) ∧
    (delete_note [("John", ⟨["a", "b"], []⟩)] "John" none none 1).1 = DelOutcome.deleted "a" ∧
    delete_note [] "John" none none 1 = (DelOutcome.notFound, []) := by
  refine ⟨?_, ?_, ?_⟩
  · exact (claim_C5 [("John", ⟨["a", "b"], []⟩)] "John" none none 5).2.1
      ["a", "b"] (by decide) (by decide)
  · exact ((claim_C5 [("John", ⟨["a", "b"], []⟩)] "John" none none 1).2.2
      ["a", "b"] (by decide) (by decide) (by decide)).1.trans (by decide)
  · exact (claim_C5 [] "John" none none 1).1 (by decide)

end VerseNotes
